import Mathlib

/-!
# Verification of `parallel_density_compute.py`

A shallow embedding of the orchestration script that computes SCF density
matrices for all molecules of a dataset in parallel, partitions per-item
outcomes into a success map (`densities`) and an error map (`errors`), and
writes a single output artifact.

The external per-item computation `scf_density_matrix` is opaque: it is
modelled as a parameter of type `α → String → Except String β` (the
`String` argument is the basis set; a raised Python exception is the
`.error` case carrying `str(e)`).  Dataset items have opaque type `α`,
density matrices opaque type `β`.  Python dicts keyed by `int` are
embedded as insertion-ordered association lists `List (Nat × v)` with
Python's assignment semantics (`dictInsert`).
-/

namespace ParallelDensity

universe u v

variable {α : Type u} {β : Type v} {v' : Type v}

/-- The f-string `f"Error computing density for molecule {idx}: {str(e)}"`
(src line 29). -/
def errMsg (idx : Nat) (e : String) : String :=
  "Error computing density for molecule " ++ toString idx ++ ": " ++ e

/-- Embeds `compute_density_safe(args)` (src lines 19-31): unpack
`(idx, atoms)`, run `scf_density_matrix(atoms, 'sto-3g')`; on success return
`(idx, density_matrix, None)`, on an exception `e` return
`(idx, None, f"Error computing density for molecule {idx}: {str(e)}")`. -/
def compute_density_safe (scf_density_matrix : α → String → Except String β)
    (args : Nat × α) : Nat × Option β × Option String :=
  let idx := args.1
  let atoms := args.2
  match scf_density_matrix atoms "sto-3g" with
  | Except.ok density_matrix => (idx, some density_matrix, none)
  | Except.error e => (idx, none, some (errMsg idx e))

/-- Embeds `args_list = [(i, atoms) for i, atoms in enumerate(ds)]`
(src line 41). -/
def args_list (ds : List α) : List (Nat × α) :=
  ds.enum

/-- Embeds `results = pool.map(compute_density_safe, args_list)`
(src lines 50-51): `multiprocessing.Pool.map` returns one result per
argument, in submission order. -/
def runResults (scf_density_matrix : α → String → Except String β)
    (ds : List α) : List (Nat × Option β × Option String) :=
  (args_list ds).map (compute_density_safe scf_density_matrix)

/-- Python dict assignment `m[k] = x`: overwrite in place when the key is
present, otherwise append at the end (insertion order). -/
def dictInsert (m : List (Nat × v')) (k : Nat) (x : v') : List (Nat × v') :=
  if k ∈ m.map Prod.fst then
    m.map (fun p => if p.1 = k then (k, x) else p)
  else
    m ++ [(k, x)]

/-- Key list of an embedded dict. -/
def dictKeys (m : List (Nat × v')) : List Nat :=
  m.map Prod.fst

/-- Python dict lookup `m.get(k)`: the value stored at key `k`, if any. -/
def dictLookup (k : Nat) : List (Nat × v') → Option v'
  | [] => none
  | p :: m => if p.1 = k then some p.2 else dictLookup k m

/-- One iteration of the partition loop (src lines 57-61):
`if error_msg is None: densities[idx] = density_matrix
 else: errors[idx] = error_msg`. -/
def partitionStep (acc : List (Nat × Option β) × List (Nat × String))
    (r : Nat × Option β × Option String) :
    List (Nat × Option β) × List (Nat × String) :=
  match r with
  | (idx, density_matrix, none) => (dictInsert acc.1 idx density_matrix, acc.2)
  | (idx, _, some error_msg) => (acc.1, dictInsert acc.2 idx error_msg)

/-- Embeds the whole partition loop (src lines 54-61), starting from the
empty dicts `densities = {}` and `errors = {}`. -/
def collectResults (results : List (Nat × Option β × Option String)) :
    List (Nat × Option β) × List (Nat × String) :=
  results.foldl partitionStep ([], [])

/-- The output artifact structure `output_data` (src lines 67-76), with the
metadata fields flattened. -/
structure OutputData (β : Type v) where
  densities : List (Nat × Option β)
  errors : List (Nat × String)
  basis : String
  total_molecules : Nat
  successful : Nat
  failed : Nat
deriving DecidableEq

/-- Embeds the construction of `output_data` (src lines 54-76) from the
loaded dataset `ds` and the external computation. -/
def output_data (scf_density_matrix : α → String → Except String β)
    (ds : List α) : OutputData β :=
  let results := runResults scf_density_matrix ds
  let part := collectResults results
  { densities := part.1
    errors := part.2
    basis := "sto-3g"
    total_molecules := ds.length
    successful := part.1.length
    failed := part.2.length }

/-- Events observable in the orchestrator's control flow, in program order:
dataset loaded, all per-item results collected by the pool map, artifact
written to disk. -/
inductive TraceEvent (β : Type v) where
  | loaded (n : Nat)
  | collected (results : List (Nat × Option β × Option String))
  | written (out : OutputData β)
deriving DecidableEq

/-- Modelled from the spec: infrastructure failures (`load_dataset` raising,
pool creation/communication failure) are uncaught and terminate `main`
before any later statement runs (spec section 7); these failure branches are
not explicit in `main` (src lines 34-88), whose straight-line order is
load, pool map, partition, write.  `loadResult` is the outcome of
`load_dataset('QM7', 'data')` and `poolFailure` an optional pool-level
failure; the result is the event trace `main` produces. -/
def mainTrace (loadResult : Except String (List α)) (poolFailure : Option String)
    (scf_density_matrix : α → String → Except String β) : List (TraceEvent β) :=
  match loadResult with
  | Except.error _ => []
  | Except.ok ds =>
      TraceEvent.loaded ds.length ::
      (match poolFailure with
       | some _ => []
       | none =>
           [TraceEvent.collected (runResults scf_density_matrix ds),
            TraceEvent.written (output_data scf_density_matrix ds)])

/-- Number of artifact writes in a trace. -/
def writeCount (t : List (TraceEvent β)) : Nat :=
  (t.filter (fun e => match e with
    | TraceEvent.written _ => true
    | _ => false)).length

/-- Modelled from the spec: the serialized artifact file; `pickle.dump`
(src lines 81-82) is external, and the spec (sections 3 and 6) requires
that deserializing recovers the nested structure exactly, so the file is
modelled as a faithful container of the serialized structure. -/
structure PickleFile (β : Type v) where
  contents : OutputData β
deriving DecidableEq

/-- Modelled from the spec: `pickle.dump(output_data, f)` (src line 82). -/
def pickle_dump (d : OutputData β) : PickleFile β :=
  ⟨d⟩

/-- Modelled from the spec: `pickle.load` on the written artifact, the
compatible deserialization mechanism of spec section 6. -/
def pickle_load (f : PickleFile β) : OutputData β :=
  f.contents

/-- Success projection of one result record: the entry the partition loop
adds to `densities`, if any. -/
def toSucc : Nat × Option β × Option String → Option (Nat × Option β)
  | (idx, density_matrix, none) => some (idx, density_matrix)
  | (_, _, some _) => none

/-- Error projection of one result record: the entry the partition loop
adds to `errors`, if any. -/
def toErr : Nat × Option β × Option String → Option (Nat × String)
  | (_, _, none) => none
  | (idx, _, some error_msg) => some (idx, error_msg)

/-- The outcome of the external computation at index `i` of the dataset:
`none` when `i` is out of range. -/
def outcomeAt (scf_density_matrix : α → String → Except String β)
    (ds : List α) (i : Nat) : Option (Except String β) :=
  (ds[i]?).map (fun atoms => scf_density_matrix atoms "sto-3g")

/-- A concrete external computation for closed examples: it raises exactly on
the atom value `20` and otherwise returns the atom value plus one. -/
def scfEx : Nat → String → Except String Nat := fun atoms _basis =>
  if atoms = 20 then Except.error "bad molecule" else Except.ok (atoms + 1)

/-- A concrete external computation that never raises. -/
def scfExOk : Nat → String → Except String Nat := fun atoms _basis =>
  Except.ok (atoms + 1)

/-- A concrete three-item dataset whose middle item makes `scfEx` raise. -/
def dsEx : List Nat := [10, 20, 30]

/-- A concrete five-item dataset whose item at index 2 makes `scfEx` raise. -/
def dsEx5 : List Nat := [10, 11, 20, 13, 14]

theorem dictKeys_append (m m' : List (Nat × v')) :
    dictKeys (m ++ m') = dictKeys m ++ dictKeys m' :=
  List.map_append _ m m'

theorem dictInsert_fresh (m : List (Nat × v')) (k : Nat) (x : v')
    (h : k ∉ dictKeys m) : dictInsert m k x = m ++ [(k, x)] := by
  unfold dictInsert
  rw [if_neg]
  exact h

theorem foldl_partitionStep (rs : List (Nat × Option β × Option String)) :
    ∀ d e, (∀ r ∈ rs, r.1 ∉ dictKeys d ∧ r.1 ∉ dictKeys e) →
      (rs.map (fun r => r.1)).Nodup →
      rs.foldl partitionStep (d, e) =
        (d ++ rs.filterMap toSucc, e ++ rs.filterMap toErr) := by
  induction rs with
  | nil => intro d e _ _; simp
  | cons r rs ih =>
    intro d e hfresh hnd
    obtain ⟨idx, dm, err⟩ := r
    have hhead := hfresh _ (List.mem_cons_self _ _)
    have hidx : idx ∉ rs.map (fun r => r.1) := by
      simpa using (List.nodup_cons.mp hnd).1
    have hndtail : (rs.map (fun r => r.1)).Nodup := (List.nodup_cons.mp hnd).2
    cases err with
    | none =>
      have hstep : partitionStep (d, e) (idx, dm, none) =
          (d ++ [(idx, dm)], e) := by
        simp [partitionStep, dictInsert_fresh d idx dm hhead.1]
      rw [List.foldl_cons, hstep,
        ih (d ++ [(idx, dm)]) e ?fresh hndtail]
      · simp [toSucc, toErr, List.filterMap_cons]
      case fresh =>
        intro r hr
        have hr1 := hfresh r (List.mem_cons_of_mem _ hr)
        have hne : r.1 ≠ idx := by
          intro hcon
          exact hidx (hcon ▸ List.mem_map_of_mem (fun r => r.1) hr)
        constructor
        · rw [dictKeys_append]
          intro hc
          rcases List.mem_append.mp hc with h | h
          · exact hr1.1 h
          · exact hne (by simpa [dictKeys] using h)
        · exact hr1.2
    | some msg =>
      have hstep : partitionStep (d, e) (idx, dm, some msg) =
          (d, e ++ [(idx, msg)]) := by
        simp [partitionStep, dictInsert_fresh e idx msg hhead.2]
      rw [List.foldl_cons, hstep,
        ih d (e ++ [(idx, msg)]) ?fresh hndtail]
      · simp [toSucc, toErr, List.filterMap_cons]
      case fresh =>
        intro r hr
        have hr1 := hfresh r (List.mem_cons_of_mem _ hr)
        have hne : r.1 ≠ idx := by
          intro hcon
          exact hidx (hcon ▸ List.mem_map_of_mem (fun r => r.1) hr)
        constructor
        · exact hr1.1
        · rw [dictKeys_append]
          intro hc
          rcases List.mem_append.mp hc with h | h
          · exact hr1.2 h
          · exact hne (by simpa [dictKeys] using h)

theorem runResults_map_fst (scf : α → String → Except String β) (ds : List α) :
    (runResults scf ds).map (fun r => r.1) = List.range ds.length := by
  unfold runResults args_list
  rw [List.map_map]
  have hcomp : ((fun r : Nat × Option β × Option String => r.1) ∘
      compute_density_safe scf) = Prod.fst := by
    funext p
    obtain ⟨i, a⟩ := p
    simp only [Function.comp_apply, compute_density_safe]
    cases scf a "sto-3g" <;> rfl
  rw [hcomp, List.enum_map_fst]

theorem collectResults_runResults (scf : α → String → Except String β)
    (ds : List α) :
    collectResults (runResults scf ds) =
      ((runResults scf ds).filterMap toSucc,
       (runResults scf ds).filterMap toErr) := by
  unfold collectResults
  rw [foldl_partitionStep _ [] []
    (by intro r _; simp [dictKeys])
    (by rw [runResults_map_fst]; exact List.nodup_range _)]
  simp

theorem dictLookup_eq_none_iff (k : Nat) (m : List (Nat × v')) :
    dictLookup k m = none ↔ k ∉ dictKeys m := by
  induction m with
  | nil => simp [dictLookup, dictKeys]
  | cons p m ih =>
    rw [show dictKeys (p :: m) = p.1 :: dictKeys m from rfl]
    by_cases h : p.1 = k
    · simp [dictLookup, h]
    · rw [show dictLookup k (p :: m) = dictLookup k m from by
        simp [dictLookup, h]]
      rw [ih, List.mem_cons]
      constructor
      · intro hn hc
        rcases hc with hc | hc
        · exact h hc.symm
        · exact hn hc
      · intro hn hc
        exact hn (Or.inr hc)

theorem dictLookup_eq_some_of_mem {m : List (Nat × v')}
    (hnd : (dictKeys m).Nodup) {k : Nat} {x : v'} (hmem : (k, x) ∈ m) :
    dictLookup k m = some x := by
  induction m with
  | nil => cases hmem
  | cons p m ih =>
    rw [show dictKeys (p :: m) = p.1 :: dictKeys m from rfl,
      List.nodup_cons] at hnd
    rcases List.mem_cons.mp hmem with h | h
    · rw [← h]
      simp [dictLookup]
    · have hne : p.1 ≠ k := by
        intro he
        exact hnd.1 (he ▸ List.mem_map_of_mem Prod.fst h)
      simp only [dictLookup, if_neg hne]
      exact ih hnd.2 h

theorem mem_dictKeys_iff (k : Nat) (m : List (Nat × v')) :
    k ∈ dictKeys m ↔ ∃ x, (k, x) ∈ m := by
  constructor
  · intro h
    obtain ⟨p, hp, hfst⟩ := List.mem_map.mp h
    exact ⟨p.2, by rwa [show (k, p.2) = p by rw [← hfst]]⟩
  · rintro ⟨x, hx⟩
    exact List.mem_map.mpr ⟨(k, x), hx, rfl⟩

theorem keys_filterMap_toSucc_sublist
    (rs : List (Nat × Option β × Option String)) :
    ((rs.filterMap toSucc).map Prod.fst).Sublist
      (rs.map (fun r => r.1)) := by
  induction rs with
  | nil => simp
  | cons r rs ih =>
    obtain ⟨idx, dm, err⟩ := r
    cases err with
    | none =>
      simpa [toSucc, List.filterMap_cons] using ih.cons₂ idx
    | some msg =>
      simpa [toSucc, List.filterMap_cons] using ih.cons idx

theorem keys_filterMap_toErr_sublist
    (rs : List (Nat × Option β × Option String)) :
    ((rs.filterMap toErr).map Prod.fst).Sublist
      (rs.map (fun r => r.1)) := by
  induction rs with
  | nil => simp
  | cons r rs ih =>
    obtain ⟨idx, dm, err⟩ := r
    cases err with
    | none =>
      simpa [toErr, List.filterMap_cons] using ih.cons idx
    | some msg =>
      simpa [toErr, List.filterMap_cons] using ih.cons₂ idx

theorem densities_keys_nodup (scf : α → String → Except String β)
    (ds : List α) : (dictKeys (output_data scf ds).densities).Nodup := by
  have h1 : (output_data scf ds).densities =
      (runResults scf ds).filterMap toSucc := by
    simp [output_data, collectResults_runResults]
  rw [h1]
  exact ((keys_filterMap_toSucc_sublist _).nodup
    (by rw [runResults_map_fst]; exact List.nodup_range _))

theorem errors_keys_nodup (scf : α → String → Except String β)
    (ds : List α) : (dictKeys (output_data scf ds).errors).Nodup := by
  have h1 : (output_data scf ds).errors =
      (runResults scf ds).filterMap toErr := by
    simp [output_data, collectResults_runResults]
  rw [h1]
  exact ((keys_filterMap_toErr_sublist _).nodup
    (by rw [runResults_map_fst]; exact List.nodup_range _))

theorem mem_densities_iff (scf : α → String → Except String β)
    (ds : List α) {i : Nat} {x : Option β} :
    (i, x) ∈ (output_data scf ds).densities ↔
      ∃ a, ds[i]? = some a ∧
        ∃ dm, scf a "sto-3g" = Except.ok dm ∧ x = some dm := by
  have h1 : (output_data scf ds).densities =
      (runResults scf ds).filterMap toSucc := by
    simp [output_data, collectResults_runResults]
  rw [h1]
  unfold runResults args_list
  constructor
  · intro h
    obtain ⟨r, hr, hsucc⟩ := List.mem_filterMap.mp h
    obtain ⟨⟨j, a⟩, hja, rfl⟩ := List.mem_map.mp hr
    have hja' : ds[j]? = some a := List.mem_enum_iff_getElem?.mp hja
    cases hscf : scf a "sto-3g" with
    | ok dm =>
      have : toSucc (compute_density_safe scf (j, a)) = some (j, some dm) := by
        simp [compute_density_safe, hscf, toSucc]
      rw [this] at hsucc
      obtain ⟨rfl, rfl⟩ := Prod.mk.injEq .. ▸ (Option.some.injEq .. ▸ hsucc)
      exact ⟨a, hja', dm, hscf, rfl⟩
    | error e =>
      have : toSucc (compute_density_safe scf (j, a)) = none := by
        simp [compute_density_safe, hscf, toSucc]
      rw [this] at hsucc
      cases hsucc
  · rintro ⟨a, ha, dm, hscf, rfl⟩
    refine List.mem_filterMap.mpr
      ⟨compute_density_safe scf (i, a),
       List.mem_map.mpr ⟨(i, a), List.mem_enum_iff_getElem?.mpr ha, rfl⟩, ?_⟩
    simp [compute_density_safe, hscf, toSucc]

theorem mem_errors_iff (scf : α → String → Except String β)
    (ds : List α) {i : Nat} {msg : String} :
    (i, msg) ∈ (output_data scf ds).errors ↔
      ∃ a, ds[i]? = some a ∧
        ∃ e, scf a "sto-3g" = Except.error e ∧ msg = errMsg i e := by
  have h1 : (output_data scf ds).errors =
      (runResults scf ds).filterMap toErr := by
    simp [output_data, collectResults_runResults]
  rw [h1]
  unfold runResults args_list
  constructor
  · intro h
    obtain ⟨r, hr, herr⟩ := List.mem_filterMap.mp h
    obtain ⟨⟨j, a⟩, hja, rfl⟩ := List.mem_map.mp hr
    have hja' : ds[j]? = some a := List.mem_enum_iff_getElem?.mp hja
    cases hscf : scf a "sto-3g" with
    | ok dm =>
      have : toErr (compute_density_safe scf (j, a)) = none := by
        simp [compute_density_safe, hscf, toErr]
      rw [this] at herr
      cases herr
    | error e =>
      have : toErr (compute_density_safe scf (j, a)) = some (j, errMsg j e) := by
        simp [compute_density_safe, hscf, toErr]
      rw [this] at herr
      obtain ⟨rfl, rfl⟩ := Prod.mk.injEq .. ▸ (Option.some.injEq .. ▸ herr)
      exact ⟨a, hja', e, hscf, rfl⟩
  · rintro ⟨a, ha, e, hscf, rfl⟩
    refine List.mem_filterMap.mpr
      ⟨compute_density_safe scf (i, a),
       List.mem_map.mpr ⟨(i, a), List.mem_enum_iff_getElem?.mpr ha, rfl⟩, ?_⟩
    simp [compute_density_safe, hscf, toErr]

theorem dictLookup_densities (scf : α → String → Except String β)
    (ds : List α) (i : Nat) :
    dictLookup i (output_data scf ds).densities =
      (match outcomeAt scf ds i with
       | some (Except.ok dm) => some (some dm)
       | _ => none) := by
  cases hds : ds[i]? with
  | none =>
    have hnot : i ∉ dictKeys (output_data scf ds).densities := by
      intro hk
      obtain ⟨x, hx⟩ := (mem_dictKeys_iff _ _).mp hk
      obtain ⟨a, ha, _⟩ := (mem_densities_iff scf ds).mp hx
      rw [hds] at ha
      cases ha
    rw [(dictLookup_eq_none_iff _ _).mpr hnot]
    simp [outcomeAt, hds]
  | some a =>
    cases hscf : scf a "sto-3g" with
    | ok dm =>
      rw [dictLookup_eq_some_of_mem (densities_keys_nodup scf ds)
        ((mem_densities_iff scf ds).mpr ⟨a, hds, dm, hscf, rfl⟩)]
      simp [outcomeAt, hds, hscf]
    | error e =>
      have hnot : i ∉ dictKeys (output_data scf ds).densities := by
        intro hk
        obtain ⟨x, hx⟩ := (mem_dictKeys_iff _ _).mp hk
        obtain ⟨a2, ha2, dm, hscf2, _⟩ := (mem_densities_iff scf ds).mp hx
        rw [hds] at ha2
        obtain rfl : a = a2 := Option.some.inj ha2
        rw [hscf] at hscf2
        cases hscf2
      rw [(dictLookup_eq_none_iff _ _).mpr hnot]
      simp [outcomeAt, hds, hscf]

theorem dictLookup_errors (scf : α → String → Except String β)
    (ds : List α) (i : Nat) :
    dictLookup i (output_data scf ds).errors =
      (match outcomeAt scf ds i with
       | some (Except.error e) => some (errMsg i e)
       | _ => none) := by
  cases hds : ds[i]? with
  | none =>
    have hnot : i ∉ dictKeys (output_data scf ds).errors := by
      intro hk
      obtain ⟨x, hx⟩ := (mem_dictKeys_iff _ _).mp hk
      obtain ⟨a, ha, _⟩ := (mem_errors_iff scf ds).mp hx
      rw [hds] at ha
      cases ha
    rw [(dictLookup_eq_none_iff _ _).mpr hnot]
    simp [outcomeAt, hds]
  | some a =>
    cases hscf : scf a "sto-3g" with
    | ok dm =>
      have hnot : i ∉ dictKeys (output_data scf ds).errors := by
        intro hk
        obtain ⟨x, hx⟩ := (mem_dictKeys_iff _ _).mp hk
        obtain ⟨a2, ha2, e, hscf2, _⟩ := (mem_errors_iff scf ds).mp hx
        rw [hds] at ha2
        obtain rfl : a = a2 := Option.some.inj ha2
        rw [hscf] at hscf2
        cases hscf2
      rw [(dictLookup_eq_none_iff _ _).mpr hnot]
      simp [outcomeAt, hds, hscf]
    | error e =>
      rw [dictLookup_eq_some_of_mem (errors_keys_nodup scf ds)
        ((mem_errors_iff scf ds).mpr ⟨a, hds, e, hscf, rfl⟩)]
      simp [outcomeAt, hds, hscf]

theorem filterMap_split_length (rs : List (Nat × Option β × Option String)) :
    (rs.filterMap toSucc).length + (rs.filterMap toErr).length = rs.length := by
  induction rs with
  | nil => rfl
  | cons r rs ih =>
    obtain ⟨idx, dm, err⟩ := r
    cases err <;> simp [toSucc, toErr, List.filterMap_cons] <;> omega

theorem runResults_length (scf : α → String → Except String β) (ds : List α) :
    (runResults scf ds).length = ds.length := by
  unfold runResults args_list
  rw [List.length_map, List.enum_length]

theorem mem_densities_keys_iff (scf : α → String → Except String β)
    (ds : List α) (i : Nat) :
    i ∈ dictKeys (output_data scf ds).densities ↔
      ∃ dm, outcomeAt scf ds i = some (Except.ok dm) := by
  constructor
  · intro h
    have hne : dictLookup i (output_data scf ds).densities ≠ none := by
      intro h0
      exact ((dictLookup_eq_none_iff _ _).mp h0) h
    rw [dictLookup_densities] at hne
    cases ho : outcomeAt scf ds i with
    | none =>
      rw [ho] at hne
      exact absurd rfl hne
    | some r =>
      cases r with
      | ok dm => exact ⟨dm, rfl⟩
      | error e =>
        rw [ho] at hne
        exact absurd rfl hne
  · rintro ⟨dm, ho⟩
    by_contra h
    have h0 := (dictLookup_eq_none_iff i _).mpr h
    rw [dictLookup_densities, ho] at h0
    cases h0

theorem mem_errors_keys_iff (scf : α → String → Except String β)
    (ds : List α) (i : Nat) :
    i ∈ dictKeys (output_data scf ds).errors ↔
      ∃ e, outcomeAt scf ds i = some (Except.error e) := by
  constructor
  · intro h
    have hne : dictLookup i (output_data scf ds).errors ≠ none := by
      intro h0
      exact ((dictLookup_eq_none_iff _ _).mp h0) h
    rw [dictLookup_errors] at hne
    cases ho : outcomeAt scf ds i with
    | none =>
      rw [ho] at hne
      exact absurd rfl hne
    | some r =>
      cases r with
      | ok dm =>
        rw [ho] at hne
        exact absurd rfl hne
      | error e => exact ⟨e, rfl⟩
  · rintro ⟨e, ho⟩
    by_contra h
    have h0 := (dictLookup_eq_none_iff i _).mpr h
    rw [dictLookup_errors, ho] at h0
    cases h0

theorem outcomeAt_isSome_iff (scf : α → String → Except String β)
    (ds : List α) (i : Nat) :
    (∃ r, outcomeAt scf ds i = some r) ↔ i < ds.length := by
  unfold outcomeAt
  cases hds : ds[i]? with
  | none =>
    simp only [hds, Option.map_none']
    constructor
    · rintro ⟨r, hr⟩
      cases hr
    · intro hlt
      exact absurd (List.getElem?_eq_none_iff.mp hds) (Nat.not_le.mpr hlt)
  | some a =>
    simp only [hds, Option.map_some']
    constructor
    · rintro ⟨r, _⟩
      obtain ⟨h, _⟩ := List.getElem?_eq_some.mp hds
      exact h
    · intro _
      exact ⟨scf a "sto-3g", rfl⟩

theorem dictLookup_mem {k : Nat} {x : v'} {m : List (Nat × v')}
    (h : dictLookup k m = some x) : (k, x) ∈ m := by
  induction m with
  | nil => cases h
  | cons p m ih =>
    by_cases hp : p.1 = k
    · rw [dictLookup, if_pos hp] at h
      have hx : p.2 = x := Option.some.inj h
      have hpk : (k, x) = p := by
        rw [← hp, ← hx]
      rw [hpk]
      exact List.mem_cons_self _ _
    · rw [dictLookup, if_neg hp] at h
      exact List.mem_cons_of_mem _ (ih h)

theorem errMsg_ne_empty (idx : Nat) (e : String) : errMsg idx e ≠ "" := by
  intro h
  have hlen : (errMsg idx e).length = 0 := by
    rw [h]
    rfl
  unfold errMsg at hlen
  rw [String.length_append, String.length_append, String.length_append] at hlen
  have hc : ("Error computing density for molecule " : String).length = 37 := rfl
  omega

theorem outcomeAt_congr (scf scf' : α → String → Except String β) (ds : List α)
    {i j : Nat} (hj : j ≠ i)
    (hagree : ∀ k b, k ≠ i → ds[k]? = some b →
      scf' b "sto-3g" = scf b "sto-3g") :
    outcomeAt scf' ds j = outcomeAt scf ds j := by
  unfold outcomeAt
  cases hds : ds[j]? with
  | none => rfl
  | some b =>
    simp only [Option.map_some']
    rw [hagree j b hj hds]

theorem dictLookup_perm {m m' : List (Nat × v')} (hperm : m.Perm m')
    (hnd : (dictKeys m').Nodup) (k : Nat) :
    dictLookup k m = dictLookup k m' := by
  have hnd' : (dictKeys m).Nodup :=
    ((hperm.map Prod.fst).nodup_iff).mpr hnd
  cases hm : dictLookup k m' with
  | some x =>
    exact dictLookup_eq_some_of_mem hnd' (hperm.symm.mem_iff.mp (dictLookup_mem hm))
  | none =>
    refine (dictLookup_eq_none_iff _ _).mpr ?_
    intro hk
    exact ((dictLookup_eq_none_iff _ _).mp hm)
      ((hperm.map Prod.fst).mem_iff.mp hk)

/-- C1: for every run, the key set of the success map (`densities`) and the
key set of the error map (`errors`) of the output artifact are disjoint, and
their union is exactly the index set `[0, N)` where `N` is the dataset
length: every index gets exactly one outcome. -/
theorem C1_success_error_keys_partition (scf : α → String → Except String β)
    (ds : List α) :
    (∀ i, ¬(i ∈ dictKeys (output_data scf ds).densities ∧
        i ∈ dictKeys (output_data scf ds).errors)) ∧
    (∀ i, (i ∈ dictKeys (output_data scf ds).densities ∨
        i ∈ dictKeys (output_data scf ds).errors) ↔ i < ds.length) := by
  constructor
  · rintro i ⟨hd, he⟩
    obtain ⟨dm, ho1⟩ := (mem_densities_keys_iff scf ds i).mp hd
    obtain ⟨e, ho2⟩ := (mem_errors_keys_iff scf ds i).mp he
    rw [ho1] at ho2
    cases ho2
  · intro i
    constructor
    · rintro (hd | he)
      · obtain ⟨dm, ho⟩ := (mem_densities_keys_iff scf ds i).mp hd
        exact (outcomeAt_isSome_iff scf ds i).mp ⟨_, ho⟩
      · obtain ⟨e, ho⟩ := (mem_errors_keys_iff scf ds i).mp he
        exact (outcomeAt_isSome_iff scf ds i).mp ⟨_, ho⟩
    · intro hlt
      obtain ⟨r, hr⟩ := (outcomeAt_isSome_iff scf ds i).mpr hlt
      cases r with
      | ok dm => exact Or.inl ((mem_densities_keys_iff scf ds i).mpr ⟨dm, hr⟩)
      | error e => exact Or.inr ((mem_errors_keys_iff scf ds i).mpr ⟨e, hr⟩)

/-- C9: for every input pair `(idx, atoms)`, the triple returned by
`compute_density_safe` has first component `idx` in both the success and the
failure case, and exactly one of its second and third components is the
`none` placeholder for the opposite outcome kind. -/
theorem C9_compute_density_safe_index_preserved
    (scf : α → String → Except String β) (idx : Nat) (atoms : α) :
    (compute_density_safe scf (idx, atoms)).1 = idx ∧
    ((compute_density_safe scf (idx, atoms)).2.1 = none ↔
      ¬(compute_density_safe scf (idx, atoms)).2.2 = none) := by
  cases hscf : scf atoms "sto-3g" <;>
    simp [compute_density_safe, hscf]

/-- C3: any exception raised by the per-item computation is caught inside
`compute_density_safe` and becomes a failure record carrying the item's index
and a human-readable message; it does not propagate: the batch produces one
result per item, and each item's result depends only on that item. -/
theorem C3_exception_caught_and_isolated (scf : α → String → Except String β)
    (ds : List α) :
    (∀ idx atoms e, scf atoms "sto-3g" = Except.error e →
        compute_density_safe scf (idx, atoms) =
          (idx, none, some (errMsg idx e))) ∧
    (runResults scf ds).length = ds.length ∧
    (∀ i, (runResults scf ds)[i]? =
        (ds[i]?).map (fun atoms => compute_density_safe scf (i, atoms))) := by
  refine ⟨?_, runResults_length scf ds, ?_⟩
  · intro idx atoms e hscf
    simp [compute_density_safe, hscf]
  · intro i
    unfold runResults args_list
    rw [List.getElem?_map, List.getElem?_enum, Option.map_map]
    rfl

/-- C5: for every run, the metadata of the artifact satisfies
`successful + failed = total_molecules = N` where `N` is the dataset length,
`successful` is the size of the success map and `failed` the size of the
error map. -/
theorem C5_metadata_counts (scf : α → String → Except String β)
    (ds : List α) :
    (output_data scf ds).successful + (output_data scf ds).failed =
      (output_data scf ds).total_molecules ∧
    (output_data scf ds).total_molecules = ds.length ∧
    (output_data scf ds).successful = (output_data scf ds).densities.length ∧
    (output_data scf ds).failed = (output_data scf ds).errors.length := by
  refine ⟨?_, rfl, rfl, rfl⟩
  show (collectResults (runResults scf ds)).1.length +
      (collectResults (runResults scf ds)).2.length = ds.length
  rw [collectResults_runResults]
  exact (filterMap_split_length _).trans (runResults_length scf ds)

/-- C6: deserializing the written artifact yields a structure equal to the
in-memory output structure that existed immediately before the write. -/
theorem C6_pickle_roundtrip (scf : α → String → Except String β)
    (ds : List α) :
    pickle_load (pickle_dump (output_data scf ds)) = output_data scf ds :=
  rfl

/-- C10: on an empty dataset the run still completes and writes the artifact,
whose success map and error map are both empty and whose metadata records
`total_molecules = 0`, `successful = 0`, `failed = 0`. -/
theorem C10_empty_dataset (scf : α → String → Except String β) :
    output_data scf ([] : List α) =
      { densities := [], errors := [], basis := "sto-3g",
        total_molecules := 0, successful := 0, failed := 0 } ∧
    mainTrace (Except.ok ([] : List α)) none scf =
      [TraceEvent.loaded 0, TraceEvent.collected [],
       TraceEvent.written (output_data scf [])] ∧
    writeCount (mainTrace (Except.ok ([] : List α)) none scf) = 1 :=
  ⟨rfl, rfl, rfl⟩

/-- C2: for any item whose computation raises, the item's index appears in
the error map with a non-empty message and not in the success map, and the
outcomes of all other items are unchanged compared with a run (computation
`scf'`) in which the items at every other index behave identically. -/
theorem C2_failure_localized (scf scf' : α → String → Except String β)
    (ds : List α) (i : Nat) (a : α) (m : String)
    (hi : ds[i]? = some a)
    (hfail : scf a "sto-3g" = Except.error m)
    (hagree : ∀ k b, k ≠ i → ds[k]? = some b →
      scf' b "sto-3g" = scf b "sto-3g") :
    (∃ msg, dictLookup i (output_data scf ds).errors = some msg ∧
      msg ≠ "") ∧
    dictLookup i (output_data scf ds).densities = none ∧
    (∀ j, j ≠ i →
      dictLookup j (output_data scf' ds).densities =
        dictLookup j (output_data scf ds).densities ∧
      dictLookup j (output_data scf' ds).errors =
        dictLookup j (output_data scf ds).errors) := by
  have ho : outcomeAt scf ds i = some (Except.error m) := by
    unfold outcomeAt
    rw [hi, Option.map_some', hfail]
  refine ⟨⟨errMsg i m, ?_, errMsg_ne_empty i m⟩, ?_, ?_⟩
  · rw [dictLookup_errors, ho]
  · rw [dictLookup_densities, ho]
  · intro j hj
    constructor
    · rw [dictLookup_densities, dictLookup_densities,
        outcomeAt_congr scf scf' ds hj hagree]
    · rw [dictLookup_errors, dictLookup_errors,
        outcomeAt_congr scf scf' ds hj hagree]

/-- Witness for C2: dataset `[10, 20, 30]` where the item at index 1 makes
`scfEx` raise, compared with `scfExOk` which never raises. -/
theorem C2_failure_localized_witness :
    (∃ msg, dictLookup 1 (output_data scfEx dsEx).errors = some msg ∧
      msg ≠ "") ∧
    dictLookup 1 (output_data scfEx dsEx).densities = none ∧
    (∀ j, j ≠ 1 →
      dictLookup j (output_data scfExOk dsEx).densities =
        dictLookup j (output_data scfEx dsEx).densities ∧
      dictLookup j (output_data scfExOk dsEx).errors =
        dictLookup j (output_data scfEx dsEx).errors) := by
  apply C2_failure_localized scfEx scfExOk dsEx 1 20 "bad molecule" rfl rfl
  intro k b hk hb
  have hklt : k < 3 := by
    by_contra hge
    rw [List.getElem?_eq_none_iff.mpr
      (by simpa [dsEx] using Nat.le_of_not_lt hge)] at hb
    cases hb
  interval_cases k
  · simp [dsEx] at hb
    subst hb
    rfl
  · exact absurd rfl hk
  · simp [dsEx] at hb
    subst hb
    rfl

/-- C4: the final success map and error map are the same (same keys mapped
to the same values) for every possible completion order of the per-item
results: partitioning any permutation of the collected result list yields
dicts with the same lookups, correlated by the index embedded in each
record. -/
theorem C4_order_invariance (scf : α → String → Except String β)
    (ds : List α) (rs : List (Nat × Option β × Option String))
    (hperm : rs.Perm (runResults scf ds)) :
    ∀ k, dictLookup k (collectResults rs).1 =
        dictLookup k (collectResults (runResults scf ds)).1 ∧
      dictLookup k (collectResults rs).2 =
        dictLookup k (collectResults (runResults scf ds)).2 := by
  have hmap : (rs.map (fun r => r.1)).Perm (List.range ds.length) := by
    have hp := hperm.map (fun r => r.1)
    rwa [runResults_map_fst] at hp
  have hnodup_rs : (rs.map (fun r => r.1)).Nodup :=
    hmap.nodup_iff.mpr (List.nodup_range _)
  have hc : collectResults rs = (rs.filterMap toSucc, rs.filterMap toErr) := by
    unfold collectResults
    rw [foldl_partitionStep rs [] []
      (by intro r _; simp [dictKeys]) hnodup_rs]
    simp
  intro k
  rw [hc, collectResults_runResults]
  have hndS : (dictKeys ((runResults scf ds).filterMap toSucc)).Nodup :=
    (keys_filterMap_toSucc_sublist _).nodup
      (by rw [runResults_map_fst]; exact List.nodup_range _)
  have hndE : (dictKeys ((runResults scf ds).filterMap toErr)).Nodup :=
    (keys_filterMap_toErr_sublist _).nodup
      (by rw [runResults_map_fst]; exact List.nodup_range _)
  exact ⟨dictLookup_perm (hperm.filterMap toSucc) hndS k,
    dictLookup_perm (hperm.filterMap toErr) hndE k⟩

/-- Witness for C4: the reversed completion order of the run on
`[10, 20, 30]` (where the middle item fails) partitions to dicts with the
same lookups as the submission order, here checked at index 1. -/
theorem C4_order_invariance_witness :
    dictLookup 1 (collectResults ((runResults scfEx dsEx).reverse)).1 =
      dictLookup 1 (collectResults (runResults scfEx dsEx)).1 ∧
    dictLookup 1 (collectResults ((runResults scfEx dsEx).reverse)).2 =
      dictLookup 1 (collectResults (runResults scfEx dsEx)).2 :=
  C4_order_invariance scfEx dsEx ((runResults scfEx dsEx).reverse)
    (List.reverse_perm _) 1

/-- C7: the artifact is written exactly once, only after every per-item
outcome has been collected by the pool map; on an infrastructure failure
(dataset load failure, or pool failure) no artifact is written at all. -/
theorem C7_write_once_after_collection (loadResult : Except String (List α))
    (poolFailure : Option String) (scf : α → String → Except String β) :
    (∀ e, loadResult = Except.error e →
        mainTrace loadResult poolFailure scf = [] ∧
        writeCount (mainTrace loadResult poolFailure scf) = 0) ∧
    (∀ ds p, loadResult = Except.ok ds → poolFailure = some p →
        mainTrace loadResult poolFailure scf = [TraceEvent.loaded ds.length] ∧
        writeCount (mainTrace loadResult poolFailure scf) = 0) ∧
    (∀ ds, loadResult = Except.ok ds → poolFailure = none →
        mainTrace loadResult poolFailure scf =
          [TraceEvent.loaded ds.length,
           TraceEvent.collected (runResults scf ds),
           TraceEvent.written (output_data scf ds)] ∧
        writeCount (mainTrace loadResult poolFailure scf) = 1) := by
  refine ⟨?_, ?_, ?_⟩
  · rintro e rfl
    exact ⟨rfl, rfl⟩
  · rintro ds p rfl rfl
    exact ⟨rfl, rfl⟩
  · rintro ds rfl rfl
    exact ⟨rfl, rfl⟩

/-- C8: end-to-end scenario on a dataset of 5 items where exactly the item
at index 2 raises: the artifact's success map has the 4 entries at indices
0, 1, 3, 4, its error map has 1 entry at index 2 with a non-empty message,
and the metadata records `total_molecules = 5`, `successful = 4`,
`failed = 1`. -/
theorem C8_end_to_end_scenario :
    dictKeys (output_data scfEx dsEx5).densities = [0, 1, 3, 4] ∧
    dictKeys (output_data scfEx dsEx5).errors = [2] ∧
    (∃ msg, dictLookup 2 (output_data scfEx dsEx5).errors = some msg ∧
      msg ≠ "") ∧
    (output_data scfEx dsEx5).total_molecules = 5 ∧
    (output_data scfEx dsEx5).successful = 4 ∧
    (output_data scfEx dsEx5).failed = 1 :=
  ⟨rfl, rfl, ⟨errMsg 2 "bad molecule", rfl, by decide⟩, rfl, rfl, rfl⟩

end ParallelDensity
